import Mathlib

/-!
Verification of the KnowledgeBot ingestion pipeline.

This file gives a shallow embedding, in Lean, of the parts of the
repository that the specification's claims are about:

* the document chunker (`source/Document_Vectorization/document_chunking.py`):
  cleaning, structure detection, the structural / paragraph / semantic /
  fixed-length chunking strategies and the fixed-length sub-splitter
  `_split_long_text`;
* the orchestration code (`source/FastAPI_Processor/main.py` and
  `source/Document_Vectorization/main.py`): the tail of
  `process_document_complete` after a successful storage stage, the
  artifact-cache short-circuit of `process_document`, and the per-run
  document status writes;
* the storage adapter (`source/Document_Vectorization/vector_storage.py`):
  vector dimension normalization, `update_document_status` and
  `delete_vectors_by_file_path`.

Text is modelled as `List Char`; Python machine behaviour (string slices,
regexes restricted to the patterns actually used, exceptions) is translated
explicitly.  Functions whose Python counterpart can loop forever take fuel
and return `Option`; `none` means the fuel ran out.
-/

/-! ## Basic character classes (document_chunking.py) -/

/-- ASCII whitespace characters matched by Python's `\s` and stripped by
`str.strip()` (the inputs considered here are ASCII plus the CJK punctuation
listed in the source; CJK whitespace does not occur). -/
def isPySpace (c : Char) : Bool :=
  c = ' ' || c = '\t' || c = '\n' || c = '\r' || c = '\x0b' || c = '\x0c'

/-- The word-boundary separator characters of `_split_long_text`
(document_chunking.py line 184). -/
def sepChars : List Char :=
  [' ', '\n', '.', '!', '?', ',', ';', ':', '，', '。', '！', '？', '；', '：']

/-- Python `text[e] in sepChars`, with out-of-range indices reading as
`false` (in the source the index is always in range at this point). -/
def isSepAt (text : List Char) (e : Nat) : Bool :=
  match text.get? e with
  | some c => sepChars.contains c
  | none => false

/-! ## The fixed-length splitter `_split_long_text`
(document_chunking.py lines 159-198) -/

/-- The inner boundary-search loop of `_split_long_text` (lines 183-186):
starting from position `lo + k`, decrement while the position is above `lo`
and no separator character is found; `findEndAux text lo k` is the final
value of `end` for a loop entered at `end = lo + k`.  `k = 0` means the
guard `end > start + min_chunk_size` failed and `end = lo` is returned. -/
def findEndAux (text : List Char) (lo : Nat) : Nat → Nat
  | 0 => lo
  | k + 1 => if isSepAt text (lo + k + 1) then lo + k + 1 else findEndAux text lo k

/-- The boundary search for an initial `end = e` and bound
`lo = start + min_chunk_size`: if the initial `end` already fails the loop
guard it is returned unchanged, otherwise the loop runs. -/
def findEnd (text : List Char) (lo e : Nat) : Nat :=
  if e ≤ lo then e else findEndAux text lo (e - lo)

/-- The cut position chosen by `_split_long_text` for a window starting at
`start` (lines 175-190): boundary-search down from `start + chunk_size`;
if no boundary strictly above `start + min_chunk_size` was found, cut hard
at `start + chunk_size` (line 189-190). -/
def boundedEnd (cs mc : Nat) (text : List Char) (start : Nat) : Nat :=
  let e2 := findEnd text (start + mc) (start + cs)
  if e2 ≤ start + mc then start + cs else e2

/-- The next window start, `start = end + 1 - chunk_overlap` (line 196).
All runs considered in this file keep this value non-negative, so `Nat`
subtraction agrees with the Python arithmetic. -/
def stepStart (cs co mc : Nat) (text : List Char) (start : Nat) : Nat :=
  boundedEnd cs mc text start + 1 - co

/-- The `while start < text_len` loop of `_split_long_text`, with fuel.
Each iteration either emits the final chunk `text[start:]` when
`start + chunk_size >= text_len` (lines 177-180), or emits
`text[start:end+1]` (line 193) and continues at `end + 1 - chunk_overlap`.
`none` means the fuel was exhausted (the Python loop has not terminated
within that many iterations). -/
def splitAux (cs co mc : Nat) (text : List Char) : Nat → Nat → Option (List (List Char))
  | _, 0 => none
  | start, fuel + 1 =>
    if text.length ≤ start then some []
    else if text.length ≤ start + cs then some [text.drop start]
    else
      (splitAux cs co mc text (stepStart cs co mc text start) fuel).map
        (fun rest => (text.drop start).take (boundedEnd cs mc text start + 1 - start) :: rest)

/-- `_split_long_text` with enough fuel for any terminating run: each
iteration that makes progress advances `start` by at least one, so a
terminating run takes at most `text.length + 1` iterations. -/
def splitLongText (cs co mc : Nat) (text : List Char) : Option (List (List Char)) :=
  splitAux cs co mc text 0 (text.length + 1)

/-- Concatenation of a chunk list with the first `co` characters of every
chunk removed. -/
def joinDropped (co : Nat) (l : List (List Char)) : List Char :=
  (l.map (List.drop co)).flatten

/-- Concatenation of a chunk list with the declared overlap removed from
every chunk except the first. -/
def reassemble (co : Nat) : List (List Char) → List Char
  | [] => []
  | c :: rest => c ++ joinDropped co rest

/-! ### Lemmas about the splitter -/

theorem findEndAux_le (text : List Char) (lo : Nat) :
    ∀ k, lo ≤ findEndAux text lo k ∧ findEndAux text lo k ≤ lo + k := by
  intro k
  induction k with
  | zero => simp [findEndAux]
  | succ k ih =>
    simp only [findEndAux]
    split
    · omega
    · omega

theorem boundedEnd_ge (cs co mc : Nat) (text : List Char) (start : Nat)
    (hmc : co ≤ mc) (hcs : co ≤ cs) : start + co ≤ boundedEnd cs mc text start := by
  show start + co ≤
    if findEnd text (start + mc) (start + cs) ≤ start + mc then start + cs
    else findEnd text (start + mc) (start + cs)
  split
  · omega
  · next h =>
    unfold findEnd at h ⊢
    split at h
    · omega
    · split
      · omega
      · have := findEndAux_le text (start + mc) (start + cs - (start + mc))
        omega

theorem take_drop_glue (t : List Char) (a m n : Nat) (h : n = a + m) :
    (t.drop a).take m ++ t.drop n = t.drop a := by
  subst h
  have h2 : t.drop (a + m) = (t.drop a).drop m := by
    rw [List.drop_drop, Nat.add_comm]
  rw [h2, List.take_append_drop]

/-- Master lemma for `_split_long_text` under the progress condition
`chunk_overlap ≤ min_chunk_size` and `chunk_overlap ≤ chunk_size`: with
fuel exceeding the remaining length, the loop terminates, dropping the
overlap from every chunk recovers the tail `text[start + co:]`, and keeping
the first chunk whole recovers `text[start:]`. -/
theorem splitAux_spec (cs co mc : Nat) (hmc : co ≤ mc) (hcs : co ≤ cs) (text : List Char) :
    ∀ fuel start, text.length - start < fuel →
      ∃ chunks, splitAux cs co mc text start fuel = some chunks ∧
        joinDropped co chunks = text.drop (start + co) ∧
        reassemble co chunks = text.drop start := by
  intro fuel
  induction fuel with
  | zero => intro start h; omega
  | succ f ih =>
    intro start h
    by_cases h1 : text.length ≤ start
    · refine ⟨[], ?_, ?_, ?_⟩
      · simp [splitAux, h1]
      · simp [joinDropped, List.drop_of_length_le (by omega : text.length ≤ start + co)]
      · simp [reassemble, List.drop_of_length_le h1]
    · by_cases h2 : text.length ≤ start + cs
      · refine ⟨[text.drop start], ?_, ?_, ?_⟩
        · simp [splitAux, h1, h2]
        · simp [joinDropped, List.drop_drop, Nat.add_comm co start]
        · simp [reassemble, joinDropped]
      · have hge : start + co ≤ boundedEnd cs mc text start :=
          boundedEnd_ge cs co mc text start hmc hcs
        have h3 : text.length - stepStart cs co mc text start < f := by
          unfold stepStart; omega
        obtain ⟨rest, hr, hj, hra⟩ := ih (stepStart cs co mc text start) h3
        set e := boundedEnd cs mc text start with hedef
        have hstep : stepStart cs co mc text start + co = e + 1 := by
          unfold stepStart; omega
        refine ⟨(text.drop start).take (e + 1 - start) :: rest, ?_, ?_, ?_⟩
        · simp only [splitAux, h1, h2, if_false, ← hedef, hr]
          rfl
        · rw [joinDropped]
          simp only [List.map_cons, List.flatten_cons]
          rw [show (rest.map (List.drop co)).flatten = joinDropped co rest from rfl, hj, hstep,
            List.drop_take, List.drop_drop]
          exact take_drop_glue text (start + co) (e + 1 - start - co) (e + 1) (by omega)
        · rw [reassemble, hj, hstep]
          exact take_drop_glue text start (e + 1 - start) (e + 1) (by omega)

theorem splitLongText_spec (cs co mc : Nat) (hmc : co ≤ mc) (hcs : co ≤ cs)
    (text : List Char) :
    ∃ chunks, splitLongText cs co mc text = some chunks ∧
      reassemble co chunks = text := by
  obtain ⟨chunks, h1, _, h3⟩ :=
    splitAux_spec cs co mc hmc hcs text (text.length + 1) 0 (by omega)
  exact ⟨chunks, h1, by simpa using h3⟩

/-! ### Behaviour of the splitter on separator-free text -/

theorem isSepAt_eq_false (text : List Char)
    (h : ∀ c ∈ text, sepChars.contains c = false) (e : Nat) :
    isSepAt text e = false := by
  unfold isSepAt
  cases hg : text.get? e with
  | none => rfl
  | some c => exact h c (List.get?_mem hg)

theorem findEndAux_noSep (text : List Char)
    (h : ∀ c ∈ text, sepChars.contains c = false) (lo : Nat) :
    ∀ k, findEndAux text lo k = lo := by
  intro k
  induction k with
  | zero => rfl
  | succ k ih => simp [findEndAux, isSepAt_eq_false text h, ih]

theorem boundedEnd_noSep (cs mc : Nat) (text : List Char)
    (h : ∀ c ∈ text, sepChars.contains c = false) (start : Nat) :
    boundedEnd cs mc text start = start + cs := by
  show (if findEnd text (start + mc) (start + cs) ≤ start + mc then start + cs
    else findEnd text (start + mc) (start + cs)) = start + cs
  by_cases hc : start + cs ≤ start + mc
  · simp [findEnd, hc]
  · simp [findEnd, hc, findEndAux_noSep text h]

/-- One full loop iteration of `_split_long_text` on separator-free text in
the non-final case: the boundary search finds nothing, the cut falls back to
`start + chunk_size`, the emitted chunk is `text[start:start+chunk_size+1]`
(one more character than `chunk_size`), and the loop continues at
`start + chunk_size + 1 - chunk_overlap`. -/
theorem splitAux_noSep_step (cs co mc : Nat) (text : List Char)
    (h : ∀ c ∈ text, sepChars.contains c = false) (start f : Nat)
    (h1 : ¬ text.length ≤ start) (h2 : ¬ text.length ≤ start + cs) :
    splitAux cs co mc text start (f + 1) =
      (splitAux cs co mc text (start + cs + 1 - co) f).map
        (fun rest => (text.drop start).take (cs + 1) :: rest) := by
  simp only [splitAux, h1, h2, if_false, stepStart, boundedEnd_noSep cs mc text h]
  rw [show start + cs + 1 - start = cs + 1 from by omega]

/-- With `chunk_overlap = 501 > chunk_size = 500` on a 502-character
separator-free text, the next start is `500 + 1 - 501 = 0`: the start
pointer never advances and `_split_long_text` loops forever (no amount of
fuel yields a result). -/
theorem splitAux_overlap_loop :
    ∀ fuel, splitAux 500 501 50 (List.replicate 502 'a') 0 fuel = none := by
  intro fuel
  induction fuel with
  | zero => rfl
  | succ f ih =>
    have hsep : ∀ c ∈ List.replicate 502 'a', sepChars.contains c = false := by
      intro c hc
      rw [List.eq_of_mem_replicate hc]
      decide
    rw [splitAux_noSep_step 500 501 50 _ hsep 0 f
      (by rw [List.length_replicate]; omega) (by rw [List.length_replicate]; omega), ih]
    rfl

/-! ## Document cleaning `_clean_document`
(document_chunking.py lines 61-82) -/

/-- First cleaning step, Python `re.sub(r'\s+', ' ', content)` (line 72):
every maximal run of whitespace characters — newlines included — becomes a
single space.  The `Bool` argument records whether the previous character
was part of a whitespace run. -/
def squeezeWs : Bool → List Char → List Char
  | _, [] => []
  | prevWs, c :: rest =>
    if isPySpace c then
      if prevWs then squeezeWs true rest else ' ' :: squeezeWs true rest
    else c :: squeezeWs false rest

/-- Replacement for a run of `k` consecutive newlines under
`re.sub(r'\n{3,}', '\n\n', content)`: runs of three or more newlines become
exactly two, shorter runs are kept. -/
def emitNlRun (k : Nat) : List Char :=
  if 3 ≤ k then ['\n', '\n'] else List.replicate k '\n'

/-- Second cleaning step, Python `re.sub(r'\n{3,}', '\n\n', content)`
(line 75).  `k` counts the newlines of the run currently being read.
Note that after `squeezeWs` the text contains no newline at all, so in the
pipeline this step is the identity. -/
def squeezeNl (k : Nat) : List Char → List Char
  | [] => emitNlRun k
  | c :: rest =>
    if c = '\n' then squeezeNl (k + 1) rest else emitNlRun k ++ c :: squeezeNl 0 rest

/-- The control characters removed by the third cleaning step,
`re.sub(r'[\x00-\x08\x0B\x0C\x0E-\x1F\x7F]', '', content)` (line 80). -/
def isStrippedCtrl (c : Char) : Bool :=
  c.toNat ≤ 0x08 || c.toNat = 0x0b || c.toNat = 0x0c ||
    (0x0e ≤ c.toNat && c.toNat ≤ 0x1f) || c.toNat = 0x7f

/-- Third cleaning step: drop the control characters. -/
def removeCtrl (l : List Char) : List Char := l.filter (fun c => ! isStrippedCtrl c)

/-- Python `str.strip()`: remove leading and trailing whitespace. -/
def pyStrip (l : List Char) : List Char :=
  ((l.dropWhile isPySpace).reverse.dropWhile isPySpace).reverse

/-- `_clean_document` (lines 61-82): collapse whitespace runs to single
spaces, collapse newline runs of three or more to two (vacuous after the
first step), remove control characters, strip. -/
def cleanDocument (content : List Char) : List Char :=
  pyStrip (removeCtrl (squeezeNl 0 (squeezeWs false content)))

/-! ## Structure detection
(document_chunking.py lines 235-264) -/

/-- Python `str.split(sep)` for a single-character separator; in particular
an empty string gives `[""]`. -/
def splitOnChar (sep : Char) : List Char → List (List Char)
  | [] => [[]]
  | c :: rest =>
    let r := splitOnChar sep rest
    if c = sep then [] :: r
    else
      match r with
      | [] => [[c]]
      | h :: t => (c :: h) :: t

/-- Whether one line matches the header pattern `^#{1,6}\s+.+$` used with
`re.MULTILINE` (line 246): one to six leading hash marks (a run of seven or
more never matches, by backtracking), then at least one whitespace
character, then at least one further character (`.+` also accepts a
whitespace character, so two trailing spaces after the hashes match).
This models the matches of the multiline regex that stay within a single
line; it is exact on newline-free text — which is all the pipeline ever
passes to it, since structure detection runs on cleaned content — and on
text whose heading lines have their body on the same line. -/
def headerLineMatch (line : List Char) : Bool :=
  let hashes := (line.takeWhile (fun c => c = '#')).length
  let rest := line.drop hashes
  decide (1 ≤ hashes) && decide (hashes ≤ 6) &&
    (match rest with
     | c :: _ :: _ => isPySpace c
     | _ => false)

/-- The number of header matches found by
`re.findall(r'^#{1,6}\s+.+$', content, re.MULTILINE)` (line 247). -/
def headerLineCount (content : List Char) : Nat :=
  ((splitOnChar '\n' content).filter headerLineMatch).length

/-- `_has_markdown_structure` (lines 235-250): at least two header
matches. -/
def hasMarkdownStructure (content : List Char) : Bool :=
  decide (2 ≤ headerLineCount content)

/-! ## Paragraph splitting, `re.split(r'\n\s*\n', content)`
(document_chunking.py lines 263 and 342) -/

/-- Given a reversed whitespace run that contains a newline, the part of
the run (in order) before its first newline; this part stays with the
preceding paragraph because the regex match starts at the first newline. -/
def wsBeforeNl (ws : List Char) : List Char :=
  ws.reverse.takeWhile (fun c => c ≠ '\n')

/-- The part of a reversed whitespace run (in order) after its last
newline; this part stays with the following paragraph because the greedy
`\s*` of the match ends at the last newline of the run. -/
def wsAfterNl (ws : List Char) : List Char :=
  (ws.takeWhile (fun c => c ≠ '\n')).reverse

/-- Scanner for `re.split(r'\n\s*\n', content)`.  A match of the pattern is
a whitespace run containing at least two newlines, consumed from its first
newline through its last newline (leftmost match, greedy `\s*`); such runs
are the split points.  `piece` is the reversed text of the current piece,
`ws` the reversed whitespace run currently being read. -/
def paraGo : List Char → List Char → List Char → List (List Char)
  | [], piece, ws =>
    if 2 ≤ ws.count '\n' then [piece.reverse ++ wsBeforeNl ws, wsAfterNl ws]
    else [piece.reverse ++ ws.reverse]
  | c :: rest, piece, ws =>
    if isPySpace c then paraGo rest piece (c :: ws)
    else if 2 ≤ ws.count '\n' then
      (piece.reverse ++ wsBeforeNl ws) :: paraGo rest (c :: (wsAfterNl ws).reverse) []
    else paraGo rest (c :: (ws ++ piece)) []

/-- `re.split(r'\n\s*\n', content)`. -/
def paragraphSplit (content : List Char) : List (List Char) :=
  paraGo content [] []

/-- `_has_paragraphs` (lines 252-264): splitting on blank-line boundaries
yields at least two pieces. -/
def hasParagraphs (content : List Char) : Bool :=
  decide (2 ≤ (paragraphSplit content).length)

/-! ## Chunks and `_create_chunk`
(document_chunking.py lines 84-112) -/

/-- One output chunk: the text plus the metadata fields of `_create_chunk`. -/
structure Chunk where
  content : List Char
  source : List Char
  filePath : List Char
  fileId : Nat
  chunkId : Nat
  chunkType : String
  deriving DecidableEq

/-- `os.path.basename` for POSIX paths. -/
def pathBasename (p : List Char) : List Char :=
  (p.reverse.takeWhile (fun c => c ≠ '/')).reverse

/-- The extension part of `os.path.splitext` on a basename: the suffix from
the last dot, provided some non-dot character precedes that dot (leading
dots of a basename never start an extension). -/
def splitextExt (b : List Char) : List Char :=
  let after := b.reverse.takeWhile (fun c => c ≠ '.')
  if after.length = b.length then []
  else
    let pre := b.take (b.length - after.length - 1)
    if pre.any (fun c => c ≠ '.') then '.' :: after.reverse else []

/-- `os.path.splitext(file_path)[1].lower()` (line 49). -/
def getFileExt (p : List Char) : List Char :=
  (splitextExt (pathBasename p)).map Char.toLower

/-- `_create_chunk` (lines 84-112). -/
def createChunk (text path : List Char) (fileId chunkId : Nat) (chunkType : String) : Chunk :=
  { content := text, source := pathBasename path, filePath := path,
    fileId := fileId, chunkId := chunkId, chunkType := chunkType }

/-! ## `_process_text_unit` (lines 114-157) -/

/-- `_process_text_unit`: a unit longer than `chunk_size` is decomposed by
`_split_long_text` into chunks of type `<type>_split` with consecutive ids
from `chunkId`; otherwise it becomes a single chunk of the given type. -/
def processTextUnit (cs co mc : Nat) (textUnit path : List Char) (fileId chunkId : Nat)
    (chunkType : String) : Option (List Chunk) :=
  if cs < textUnit.length then
    (splitLongText cs co mc textUnit).map (fun pieces =>
      pieces.enum.map (fun p =>
        createChunk p.2 path fileId (chunkId + p.1) (chunkType ++ "_split")))
  else some [createChunk textUnit path fileId chunkId chunkType]

/-- Shared loop shape of `_chunk_by_paragraph` (lines 344-359) and the
flushes of `_chunk_by_semantic`: feed each unit to `_process_text_unit`,
advancing `chunk_id` by the number of chunks produced. -/
def unitsToChunks (cs co mc : Nat) (path : List Char) (fileId : Nat) (chunkType : String) :
    List (List Char) → Nat → Option (List Chunk)
  | [], _ => some []
  | u :: rest, cid =>
    match processTextUnit cs co mc u path fileId cid chunkType with
    | none => none
    | some cks =>
      match unitsToChunks cs co mc path fileId chunkType rest (cid + cks.length) with
      | none => none
      | some more => some (cks ++ more)

/-! ## Structural chunking `_chunk_by_structure` (lines 266-321) -/

/-- Join lines with newlines (inverse of `splitOnChar` up to the pieces). -/
def joinLines (ls : List (List Char)) : List Char :=
  List.intercalate ['\n'] ls

/-- The alternating content/header list produced by
`re.split(r'^(#{1,6}\s+.+)$', content, flags=re.MULTILINE)` (lines 285-286):
pieces between header lines alternate with the captured header lines,
beginning and ending with a (possibly empty) content piece.  Content pieces
are reproduced up to the newlines adjacent to the removed header lines,
which is exact for the stripped values the loop actually uses. -/
def sectionsGo : List (List Char) → List (List Char) → List (List Char)
  | [], acc => [joinLines acc.reverse]
  | l :: rest, acc =>
    if headerLineMatch l then joinLines acc.reverse :: l :: sectionsGo rest []
    else sectionsGo rest (l :: acc)

/-- The `sections` list of `_chunk_by_structure`. -/
def sectionsOf (content : List Char) : List (List Char) :=
  sectionsGo (splitOnChar '\n' content) []

/-- The `for i, section in enumerate(sections)` loop of
`_chunk_by_structure` (lines 291-307).  `isContent` tracks the parity of
`i`; the result carries the accumulated chunks together with the final
`current_header`, `current_content` and `chunk_id`, which the caller's
post-loop emission (lines 309-319) still uses. -/
def structGo (cs co mc : Nat) (path : List Char) (fileId : Nat) :
    List (List Char) → Bool → List Char → List Char → Nat →
      Option (List Chunk × List Char × List Char × Nat)
  | [], _, hdr, cont, cid => some ([], hdr, cont, cid)
  | s :: rest, isContent, hdr, cont, cid =>
    if isContent then
      if pyStrip s ≠ [] ∧ hdr ≠ [] then
        match processTextUnit cs co mc (hdr ++ '\n' :: '\n' :: pyStrip s) path fileId
            cid "section" with
        | none => none
        | some secChunks =>
          match structGo cs co mc path fileId rest false hdr (pyStrip s)
              (cid + secChunks.length) with
          | none => none
          | some r => some (secChunks ++ r.1, r.2)
      else structGo cs co mc path fileId rest false hdr (pyStrip s) cid
    else structGo cs co mc path fileId rest true (pyStrip s) cont cid

/-- `_chunk_by_structure` (lines 266-321), including the post-loop block at
lines 309-319 that re-emits the final section when its content is
non-empty. -/
def chunkByStructure (cs co mc : Nat) (content path : List Char) (fileId : Nat) :
    Option (List Chunk) :=
  match structGo cs co mc path fileId (sectionsOf content) true "开始".data [] 0 with
  | none => none
  | some r =>
    if r.2.2.1 ≠ [] ∧ r.2.1 ≠ [] then
      match processTextUnit cs co mc (r.2.1 ++ '\n' :: '\n' :: r.2.2.1) path fileId
          r.2.2.2 "section" with
      | none => none
      | some secChunks => some (r.1 ++ secChunks)
    else some r.1

/-! ## Paragraph chunking `_chunk_by_paragraph` (lines 323-361) -/

/-- `_chunk_by_paragraph`: split on blank-line boundaries, strip each
paragraph, skip empty ones, feed the rest to `_process_text_unit` with type
`paragraph`. -/
def chunkByParagraph (cs co mc : Nat) (content path : List Char) (fileId : Nat) :
    Option (List Chunk) :=
  unitsToChunks cs co mc path fileId "paragraph"
    (((paragraphSplit content).map pyStrip).filter (fun p => p ≠ [])) 0

/-! ## Semantic chunking `_chunk_by_semantic` (lines 363-441) -/

/-- The sentence-terminator class `[.!?。！？]` of the split pattern
`([.!?。！？]+[\s\n]+)` (line 383). -/
def isSentPunct (c : Char) : Bool :=
  c = '.' || c = '!' || c = '?' || c = '。' || c = '！' || c = '？'

/-- Scanner producing the recombined sentences of lines 384-391 directly:
`re.split` with the capturing pattern `([.!?。！？]+[\s\n]+)` alternates
text pieces and separators, and the code glues each text piece to the
following separator.  A separator is a maximal run of sentence punctuation
followed by at least one whitespace character (a punctuation run not
followed by whitespace matches nowhere inside either, by backtracking).
`acc` is the reversed current text, `punct` a reversed pending punctuation
run, `ws` the reversed whitespace read after that run; a separator is
complete when a non-whitespace character (or the end) follows. -/
def sentGo : List Char → List Char → List Char → List Char → List (List Char)
  | [], acc, punct, ws =>
    if ws ≠ [] then [(ws ++ punct ++ acc).reverse, []]
    else [(punct ++ acc).reverse]
  | c :: rest, acc, punct, ws =>
    if ws ≠ [] then
      if isPySpace c then sentGo rest acc punct (c :: ws)
      else
        (ws ++ punct ++ acc).reverse ::
          (if isSentPunct c then sentGo rest [] [c] [] else sentGo rest [c] [] [])
    else if punct ≠ [] then
      if isSentPunct c then sentGo rest acc (c :: punct) ws
      else if isPySpace c then sentGo rest acc punct [c]
      else sentGo rest (c :: (punct ++ acc)) [] []
    else
      if isSentPunct c then sentGo rest acc [c] []
      else sentGo rest (c :: acc) [] []

/-- The `sentences` list of `_chunk_by_semantic` (lines 383-391). -/
def splitSentences (content : List Char) : List (List Char) :=
  sentGo content [] [] []

/-- The merging loop of `_chunk_by_semantic` (lines 393-417): strip each
sentence, skip empty ones, append to the current unit while
`len(current) + len(sentence) <= chunk_size` (joined with a space), flush
otherwise.  Returns the flushed units in order, including the final one
(lines 419-428). -/
def semMerge (cs : Nat) : List (List Char) → List Char → List (List Char)
  | [], cur => if cur ≠ [] then [cur] else []
  | s :: rest, cur =>
    let s2 := pyStrip s
    if s2 = [] then semMerge cs rest cur
    else if cur.length + s2.length ≤ cs then
      semMerge cs rest (if cur = [] then s2 else cur ++ ' ' :: s2)
    else (if cur ≠ [] then [cur] else []) ++ semMerge cs rest s2

/-- `_chunk_by_semantic` (lines 363-441) on runs without runtime errors:
the `except` fallback emitting a single `full_text` chunk (lines 430-439)
catches exceptions that the modelled operations cannot raise and is
therefore not represented. -/
def chunkBySemantic (cs co mc : Nat) (content path : List Char) (fileId : Nat) :
    Option (List Chunk) :=
  unitsToChunks cs co mc path fileId "semantic" (semMerge cs (splitSentences content) []) 0

/-! ## Fixed-length chunking and dispatch (lines 200-233, 443-473) -/

/-- `_chunk_by_fixed_length` (lines 443-473): `_split_long_text` on the
whole content, every piece a `fixed_length` chunk. -/
def chunkByFixedLength (cs co mc : Nat) (content path : List Char) (fileId : Nat) :
    Option (List Chunk) :=
  (splitLongText cs co mc content).map (fun pieces =>
    pieces.enum.map (fun p => createChunk p.2 path fileId p.1 "fixed_length"))

/-- `_chunk_text_document` (lines 200-233): structural chunking when the
content has markdown structure and structure is preferred, else paragraph
chunking when it has paragraphs, else semantic chunking.  The
`except` fallback to fixed-length (lines 230-233) catches runtime errors
the modelled semantic path cannot raise and is not represented. -/
def chunkTextDocument (cs co mc : Nat) (content path : List Char) (fileId : Nat)
    (preferStructure : Bool) : Option (List Chunk) :=
  if hasMarkdownStructure content && preferStructure then
    chunkByStructure cs co mc content path fileId
  else if hasParagraphs content then
    chunkByParagraph cs co mc content path fileId
  else
    chunkBySemantic cs co mc content path fileId

/-- `chunk_document` (lines 30-59): clean the content, then dispatch on the
lower-cased file extension — `.md`/`.markdown` prefer structural chunking,
`.txt`/`.text` try paragraph chunking first, everything else is chunked by
fixed length. -/
def chunkDocument (cs co mc : Nat) (content path : List Char) (fileId : Nat) :
    Option (List Chunk) :=
  let cleaned := cleanDocument content
  let ext := getFileExt path
  if ext = ".md".data ∨ ext = ".markdown".data then
    chunkTextDocument cs co mc cleaned path fileId true
  else if ext = ".txt".data ∨ ext = ".text".data then
    chunkTextDocument cs co mc cleaned path fileId false
  else
    chunkByFixedLength cs co mc cleaned path fileId

/-! ## Vector dimension normalization
(vector_storage.py lines 279-288) -/

/-- The per-vector dimension adjustment of `_store_vectors_milvus`
(vector_storage.py lines 279-288): a vector already of the store's fixed
dimension 768 is kept; a longer one is truncated to its first 768 entries
(`vector[:768]`, line 285); a shorter one is zero-padded to 768 entries
(`np.pad(vector, (0, 768 - len(vector)), 'constant')`, line 288).  Entries
are modelled as integers; the operation never computes with them. -/
def normalizeVector (v : List Int) : List Int :=
  if v.length = 768 then v
  else if 768 < v.length then v.take 768
  else v ++ List.replicate (768 - v.length) 0

/-! ## Document status writes
(vector_storage.py lines 535-582 and 584-727,
FastAPI_Processor/main.py lines 296-324 and 463-464) -/

/-- `update_document_status` (vector_storage.py lines 535-582) restricted
to the row with the given path: when the row exists (`some s`) the given
status string is written unconditionally (the UPDATE has no condition on
the current status); when no row exists the UPDATE affects nothing. -/
def updateDocumentStatus (doc : Option String) (status : String) : Option String :=
  match doc with
  | some _ => some status
  | none => none

/-- Effect of `save_document_info` (vector_storage.py lines 584-727) on the
status of the document row: an existing row is updated without touching its
status column (lines 623-654); a missing row is inserted with status `'0'`
(lines 655-679). -/
def saveDocumentInfoStatus (doc : Option String) : Option String :=
  match doc with
  | some s => some s
  | none => some "0"

/-- The successive states of the document row over one successful run of
`process_document_complete` (FastAPI_Processor/main.py): the run writes
status `'1'` at the parse stage (line 300 or 319), saves the document info
(line 403), and writes status `'2'` after storage (line 464).  The first
entry is the state before the run. -/
def runStatusTrace (initial : Option String) : List (Option String) :=
  let d1 := updateDocumentStatus initial "1"
  let d2 := saveDocumentInfoStatus d1
  let d3 := updateDocumentStatus d2 "2"
  [initial, d1, d2, d3]

/-- The status values observable on the document row over a run, i.e. the
states at which the row exists. -/
def observedStatuses (initial : Option String) : List String :=
  (runStatusTrace initial).filterMap id

/-- Rank of a status code under UNPARSED('0') < PARSED('1') < VECTORIZED('2'). -/
def statusRank (s : String) : Nat :=
  if s = "0" then 0 else if s = "1" then 1 else if s = "2" then 2 else 3

/-- Whether a sequence of status values is non-decreasing in rank. -/
def statusMonotone : List String → Bool
  | [] => true
  | [_] => true
  | a :: b :: rest => decide (statusRank a ≤ statusRank b) && statusMonotone (b :: rest)

/-! ## The post-storage epilogue of `process_document_complete`
(FastAPI_Processor/main.py lines 456-508) -/

/-- The in-memory task record fields relevant to the epilogue. -/
structure TaskState where
  status : String
  progressStorage : String
  error : Option String
  deriving DecidableEq

/-- The names bound in the scope of `process_document_complete`
(FastAPI_Processor/main.py lines 215-508) when the result dict at
lines 473-481 is evaluated: the three parameters and every local assigned
in the body (including names only assigned on some paths). -/
def processDocumentLocals : List String :=
  ["task_id", "file_path", "klg_base_code", "file_hash", "vector_storage",
   "content", "md_file_path", "current_file_path", "fastapi_dir", "source_dir",
   "log_dir", "log_files", "timestamp", "latest_log_file", "parser", "result",
   "chunker", "file_id", "chunks", "vectorizer", "vectorized_chunks",
   "index_dir", "document_id", "conn", "cursor", "batch_id", "chunk",
   "updated_chunks", "f", "e", "log_error"]

/-- The names referenced by the result-dict expression at lines 473-481:
`original_file` reads `file_path`, `preprocessed_file` reads
`md_file_path`, `chunks_count` reads `chunks`, `vectorized_count` reads
`vectorized_chunks`, `index_built` reads `vectors` (line 478), and
`file_hash` reads `file_hash`. -/
def resultExprNames : List String :=
  ["file_path", "md_file_path", "chunks", "vectorized_chunks", "vectors", "file_hash"]

/-- Python evaluation of the result-dict expression: the first referenced
name that is not bound in scope raises `NameError`; the error value
carries that name. -/
def buildResult : Except String Unit :=
  match resultExprNames.find? (fun n => ! processDocumentLocals.contains n) with
  | some n => Except.error n
  | none => Except.ok ()

/-- The tail of `process_document_complete` once `store_vectors` and
`store_metadata` have returned without error (lines 456-508): mark the
storage stage completed (line 456), write document status `'2'`
(line 464), set the task status to `'completed'` (line 472), then evaluate
the result dict (lines 473-481); if that raises, the `except` handler at
lines 489-493 overwrites the task status with `'failed'` and records the
error.  Returns the document status written and the final task state. -/
def storageEpilogue (t : TaskState) : String × TaskState :=
  let t1 : TaskState := { t with progressStorage := "completed" }
  let docStatus := "2"
  let t2 : TaskState := { t1 with status := "completed" }
  match buildResult with
  | Except.error msg => (docStatus, { t2 with status := "failed", error := some msg })
  | Except.ok _ => (docStatus, t2)

/-! ## The artifact cache of `process_document`
(Document_Vectorization/main.py lines 113-349) -/

/-- The downstream pipeline stages of `process_document`. -/
inductive Stage
  | chunking
  | vectorization
  | indexing
  | storage
  deriving DecidableEq

/-- The non-cached path of `process_document` (lines 164-349): read the
content (empty or unreadable content returns an empty result, lines
169-201), chunk it and vectorize it (lines 203-239), and when
`build_index` is set also run the indexing and storage block
(lines 263-348).  The function returns the vectorized chunks together with
the trace of pipeline stages executed. -/
def processDocumentRun (buildIndex : Bool) (content : Option (List Char))
    (chunkFn : List Char → List Chunk) (vecFn : List Chunk → List Chunk) :
    List Chunk × List Stage :=
  match content with
  | none => ([], [])
  | some text =>
    if text = [] then ([], [])
    else
      (vecFn (chunkFn text),
        [Stage.chunking, Stage.vectorization] ++
          (if buildIndex then [Stage.indexing, Stage.storage] else []))

/-- `process_document` (Document_Vectorization/main.py lines 113-349) with
its external effects supplied as data: `artifact` is the parsed content of
an existing `<basename>_chunks.json` output file for the file (`none` when
that file is missing, empty or unreadable, lines 152-162), `content` the
text read from the source file, `chunkFn` and `vecFn` the chunker and the
vectorizer.  When `skip_processed` is set and a non-empty artifact exists,
the cached chunks are returned immediately and no downstream stage runs
(lines 153-160); otherwise the full pipeline runs. -/
def processDocument (skipProcessed buildIndex : Bool) (artifact : Option (List Chunk))
    (content : Option (List Char)) (chunkFn : List Char → List Chunk)
    (vecFn : List Chunk → List Chunk) : List Chunk × List Stage :=
  match skipProcessed, artifact with
  | true, some cached =>
    if cached ≠ [] then (cached, [])
    else processDocumentRun buildIndex content chunkFn vecFn
  | _, _ => processDocumentRun buildIndex content chunkFn vecFn

/-! ## Cascading delete
(vector_storage.py lines 438-533, FastAPI_Processor/main.py lines 765-818) -/

/-- `delete_vectors_by_file_path` (vector_storage.py lines 438-533) with
its store interactions supplied as data: `docLookup` is the document id
found for the path (step 1, lines 454-471; `none` returns `False`); the
MySQL deletions of steps 2-5 (lines 473-498) are taken to succeed — their
failure would raise to the outer `except` and return `False`;
`milvusConnected` is the connection state checked at line 501 and
`milvusDelete` the outcome of `collection.delete` (step 6, lines 502-517).
A Milvus failure is caught by the inner `except` at lines 516-517, which
only prints it; the function then commits and returns `True`
(lines 521-529).  The second component collects the messages of Milvus
failures that were caught and printed. -/
def deleteVectorsByFilePath (docLookup : Option Nat) (milvusConnected : Bool)
    (milvusDelete : Except String Unit) : Bool × List String :=
  match docLookup with
  | none => (false, [])
  | some _ =>
    match milvusConnected, milvusDelete with
    | true, Except.error msg => (true, [msg])
    | _, _ => (true, [])

/-- The per-file result record of the `delete_documents` endpoint
(FastAPI_Processor/main.py lines 783-788). -/
structure FileDeleteResult where
  vectorDeleted : Bool
  mdFileDeleted : Bool
  error : Option String
  deriving DecidableEq

/-- One iteration of the per-file loop of `delete_documents`
(lines 782-811) for an existing file whose extension needs no md-file
cleanup: the boolean returned by `delete_vectors_by_file_path` becomes
`vector_deleted` (lines 798-799) and, since no exception escaped, `error`
stays `None`. -/
def deleteDocumentsEntry (storageResult : Bool) : FileDeleteResult :=
  { vectorDeleted := storageResult, mdFileDeleted := false, error := none }

/-! ### Which chunk types each strategy can produce -/

theorem processTextUnit_types (cs co mc : Nat) (u path : List Char) (fid cid : Nat)
    (ty : String) (l : List Chunk)
    (hl : processTextUnit cs co mc u path fid cid ty = some l) :
    ∀ c ∈ l, c.chunkType = ty ∨ c.chunkType = ty ++ "_split" := by
  intro c hc
  unfold processTextUnit at hl
  split at hl
  · cases hsp : splitLongText cs co mc u with
    | none => rw [hsp] at hl; exact absurd hl (by simp)
    | some pieces =>
      rw [hsp] at hl
      simp only [Option.map_some'] at hl
      injection hl with hl
      subst hl
      right
      simp only [List.mem_map] at hc
      obtain ⟨p, _, rfl⟩ := hc
      rfl
  · injection hl with hl
    subst hl
    simp only [List.mem_singleton] at hc
    subst hc
    left
    rfl

theorem unitsToChunks_types (cs co mc : Nat) (path : List Char) (fid : Nat) (ty : String) :
    ∀ (units : List (List Char)) (cid : Nat) (l : List Chunk),
      unitsToChunks cs co mc path fid ty units cid = some l →
      ∀ c ∈ l, c.chunkType = ty ∨ c.chunkType = ty ++ "_split" := by
  intro units
  induction units with
  | nil =>
    intro cid l hl c hc
    unfold unitsToChunks at hl
    injection hl with hl
    subst hl
    simp at hc
  | cons u rest ih =>
    intro cid l hl c hc
    unfold unitsToChunks at hl
    split at hl
    · exact absurd hl (by simp)
    · next cks hp =>
      split at hl
      · exact absurd hl (by simp)
      · next more hrest =>
        injection hl with hl
        subst hl
        rcases List.mem_append.1 hc with h | h
        · exact processTextUnit_types cs co mc u path fid cid ty cks hp c h
        · exact ih (cid + cks.length) more hrest c h

theorem structGo_types (cs co mc : Nat) (path : List Char) (fid : Nat) :
    ∀ (secs : List (List Char)) (isC : Bool) (hdr cont : List Char) (cid : Nat)
      (r : List Chunk × List Char × List Char × Nat),
      structGo cs co mc path fid secs isC hdr cont cid = some r →
      ∀ c ∈ r.1, c.chunkType = "section" ∨ c.chunkType = "section_split" := by
  intro secs
  induction secs with
  | nil =>
    intro isC hdr cont cid r hr c hc
    unfold structGo at hr
    injection hr with hr
    subst hr
    simp at hc
  | cons s rest ih =>
    intro isC hdr cont cid r hr c hc
    unfold structGo at hr
    split at hr
    · split at hr
      · split at hr
        · exact absurd hr (by simp)
        · next secChunks hp =>
          split at hr
          · exact absurd hr (by simp)
          · next r2 hr2 =>
            injection hr with hr
            subst hr
            rcases List.mem_append.1 hc with h | h
            · exact processTextUnit_types cs co mc _ path fid cid "section" secChunks hp c h
            · exact ih false hdr _ _ r2 hr2 c h
      · exact ih false hdr _ cid r hr c hc
    · exact ih true _ cont cid r hr c hc

theorem chunkByStructure_types (cs co mc : Nat) (content path : List Char) (fid : Nat)
    (l : List Chunk) (hl : chunkByStructure cs co mc content path fid = some l) :
    ∀ c ∈ l, c.chunkType = "section" ∨ c.chunkType = "section_split" := by
  intro c hc
  unfold chunkByStructure at hl
  split at hl
  · exact absurd hl (by simp)
  · next r hr =>
    split at hl
    · split at hl
      · exact absurd hl (by simp)
      · next secChunks hp =>
        injection hl with hl
        subst hl
        rcases List.mem_append.1 hc with h | h
        · exact structGo_types cs co mc path fid _ _ _ _ _ r hr c h
        · exact processTextUnit_types cs co mc _ path fid _ "section" secChunks hp c h
    · injection hl with hl
      subst hl
      exact structGo_types cs co mc path fid _ _ _ _ _ r hr c hc

theorem chunkByFixedLength_types (cs co mc : Nat) (content path : List Char) (fid : Nat)
    (l : List Chunk) (hl : chunkByFixedLength cs co mc content path fid = some l) :
    ∀ c ∈ l, c.chunkType = "fixed_length" := by
  intro c hc
  unfold chunkByFixedLength at hl
  cases hs : splitLongText cs co mc content with
  | none => rw [hs] at hl; exact absurd hl (by simp)
  | some pieces =>
    rw [hs] at hl
    simp only [Option.map_some'] at hl
    injection hl with hl
    subst hl
    simp only [List.mem_map] at hc
    obtain ⟨p, _, rfl⟩ := hc
    rfl

theorem chunkTextDocument_noStructure_types (cs co mc : Nat) (content path : List Char)
    (fid : Nat) (l : List Chunk)
    (hl : chunkTextDocument cs co mc content path fid false = some l) :
    ∀ c ∈ l, c.chunkType = "paragraph" ∨ c.chunkType = "paragraph_split" ∨
      c.chunkType = "semantic" ∨ c.chunkType = "semantic_split" := by
  intro c hc
  unfold chunkTextDocument at hl
  rw [Bool.and_false, if_neg (by simp)] at hl
  split at hl
  · have := unitsToChunks_types cs co mc path fid "paragraph" _ _ _ hl c hc
    tauto
  · have := unitsToChunks_types cs co mc path fid "semantic" _ _ _ hl c hc
    tauto

/-! ### Concrete evaluation of the splitter on 1200-character texts -/

/-- On a 1200-character separator-free text with the pipeline parameters
500/50/50, the boundary search never finds a separator, so the splitter
cuts hard at `start + 500` each time and emits `text[start:start+501]`:
the three slices below. -/
theorem splitAux_final (cs co mc : Nat) (text : List Char) (start f : Nat)
    (h1 : ¬ text.length ≤ start) (h2 : text.length ≤ start + cs) :
    splitAux cs co mc text start (f + 1) = some [text.drop start] := by
  simp [splitAux, h1, h2]

theorem splitLongText_sepFree_1200 (t : List Char) (hl : t.length = 1200)
    (hsep : ∀ c ∈ t, sepChars.contains c = false) :
    splitLongText 500 50 50 t = some [t.take 501, (t.drop 451).take 501, t.drop 902] := by
  have s2 : splitAux 500 50 50 t 902 1199 = some [t.drop 902] :=
    splitAux_final 500 50 50 t 902 1198 (by omega) (by omega)
  have s1 : splitAux 500 50 50 t 451 1200 = some [(t.drop 451).take 501, t.drop 902] := by
    have hstep := splitAux_noSep_step 500 50 50 t hsep 451 1199 (by omega) (by omega)
    rw [show (451 : Nat) + 500 + 1 - 50 = 902 from rfl] at hstep
    show splitAux 500 50 50 t 451 (1199 + 1) = some [(t.drop 451).take 501, t.drop 902]
    rw [hstep, s2]
    rfl
  have s0 : splitAux 500 50 50 t 0 1201 =
      some [t.take 501, (t.drop 451).take 501, t.drop 902] := by
    have hstep := splitAux_noSep_step 500 50 50 t hsep 0 1200 (by omega) (by omega)
    rw [show (0 : Nat) + 500 + 1 - 50 = 451 from rfl] at hstep
    show splitAux 500 50 50 t 0 (1200 + 1) =
      some [t.take 501, (t.drop 451).take 501, t.drop 902]
    rw [hstep, s1]
    rfl
  unfold splitLongText
  rw [hl]
  exact s0

/-! # The claims -/

/-- C4 (amended).  With `chunk_size = 500`, `chunk_overlap = 50`,
`min_chunk_size = 50`, on every 1200-character text containing none of the
splitter's separator characters, `_split_long_text` produces exactly three
chunks — of lengths 501, 501 and 298, the non-final ones being
`chunk_size + 1` characters because the cut at `end` is emitted as
`text[start:end+1]` — and consecutive chunks share exactly the declared 50
overlapping characters (the first 50 characters of each later chunk equal
the last 50 of its predecessor). -/
theorem claim_C4_fixed_length_1200 (t : List Char) (hl : t.length = 1200)
    (hsep : ∀ c ∈ t, sepChars.contains c = false) :
    splitLongText 500 50 50 t = some [t.take 501, (t.drop 451).take 501, t.drop 902] ∧
    (t.take 501).length = 501 ∧ ((t.drop 451).take 501).length = 501 ∧
    (t.drop 902).length = 298 ∧
    ((t.drop 451).take 501).take 50 = (t.take 501).drop 451 ∧
    (t.drop 902).take 50 = ((t.drop 451).take 501).drop 451 := by
  refine ⟨splitLongText_sepFree_1200 t hl hsep, ?_, ?_, ?_, ?_, ?_⟩
  · rw [List.length_take, hl]
    decide
  · rw [List.length_take, List.length_drop, hl]
    decide
  · rw [List.length_drop, hl]
  · rw [List.take_take, List.drop_take]
    norm_num
  · rw [List.drop_take, List.drop_drop]

/-- Witness for C4: the all-`a` text of 1200 characters satisfies the
hypotheses, and the splitter returns the three stated slices. -/
theorem claim_C4_witness :
    (List.replicate 1200 'a').length = 1200 ∧
    splitLongText 500 50 50 (List.replicate 1200 'a') =
      some [(List.replicate 1200 'a').take 501,
        ((List.replicate 1200 'a').drop 451).take 501, (List.replicate 1200 'a').drop 902] :=
  ⟨by rw [List.length_replicate],
    (claim_C4_fixed_length_1200 (List.replicate 1200 'a') (by rw [List.length_replicate])
      (fun c hc => by rw [List.eq_of_mem_replicate hc]; decide)).1⟩

/-- Counterexample for C4 as stated.  On the 1200-character all-`a` text
(no structural markers) the three chunks have lengths 501, 501, 298 — the
first two exceed the claimed bound of 500, because the slice emitted for a
window ending at `end` is `text[start:end+1]`. -/
theorem claim_C4_counterexample :
    (splitLongText 500 50 50 (List.replicate 1200 'a')).map (List.map List.length) =
      some [501, 501, 298] := by
  rw [splitLongText_sepFree_1200 (List.replicate 1200 'a') (by rw [List.length_replicate])
    (fun c hc => by rw [List.eq_of_mem_replicate hc]; decide)]
  simp only [Option.map_some', List.map_cons, List.map_nil, List.length_take,
    List.length_drop, List.length_replicate]
  decide

/-- C5.  For every input text (and any chunk metadata), the fixed-length
strategy `_chunk_by_fixed_length` with the pipeline parameters 500/50/50
succeeds, and concatenating its chunks' contents in order after removing
the declared 50-character overlap prefix from every chunk except the first
yields exactly the original input. -/
theorem claim_C5_overlap_coverage : ∀ (content path : List Char) (fid : Nat),
    ∃ chunks, chunkByFixedLength 500 50 50 content path fid = some chunks ∧
      reassemble 50 (chunks.map Chunk.content) = content := by
  intro content path fid
  obtain ⟨pieces, h1, -, h3⟩ :=
    splitAux_spec 500 50 50 (by omega) (by omega) content (content.length + 1) 0 (by omega)
  refine ⟨pieces.enum.map (fun p => createChunk p.2 path fid p.1 "fixed_length"), ?_, ?_⟩
  · unfold chunkByFixedLength splitLongText
    rw [h1]
    rfl
  · have hmap : (pieces.enum.map
        (fun p => createChunk p.2 path fid p.1 "fixed_length")).map Chunk.content = pieces := by
      rw [List.map_map]
      show pieces.enum.map Prod.snd = pieces
      exact List.enum_map_snd pieces
    rw [hmap]
    simpa using h3

/-- C9 (amended).  Under the invariant `chunk_overlap < min_chunk_size ≤
chunk_size` the start pointer of `_split_long_text` strictly advances on
every iteration and the splitter terminates on every input.  The splitter
itself contains no guard for the invariant: see the counterexample, where
violating parameters make the pointer stand still forever. -/
theorem claim_C9_splitter_progress : ∀ (cs co mc : Nat) (text : List Char),
    co < mc → mc ≤ cs →
    (∀ start, start < text.length → start < stepStart cs co mc text start) ∧
    ∃ chunks, splitLongText cs co mc text = some chunks := by
  intro cs co mc text h1 h2
  refine ⟨?_, ?_⟩
  · intro start _
    have := boundedEnd_ge cs co mc text start (by omega) (by omega)
    unfold stepStart
    omega
  · obtain ⟨chunks, hc, -, -⟩ :=
      splitAux_spec cs co mc (by omega) (by omega) text (text.length + 1) 0 (by omega)
    exact ⟨chunks, hc⟩

/-- Witness for C9: parameters 500/49/50 satisfy the invariant; on a
120-character text the pointer advances from 0 and the splitter returns. -/
theorem claim_C9_witness :
    (0 < stepStart 500 49 50 (List.replicate 120 'a') 0) ∧
    ∃ chunks, splitLongText 500 49 50 (List.replicate 120 'a') = some chunks :=
  ⟨(claim_C9_splitter_progress 500 49 50 (List.replicate 120 'a') (by omega) (by omega)).1 0
      (by rw [List.length_replicate]; omega),
    (claim_C9_splitter_progress 500 49 50 (List.replicate 120 'a') (by omega) (by omega)).2⟩

/-- Counterexample for C9 as stated: with `chunk_overlap = 501` and
`chunk_size = 500` (violating the invariant) on a 502-character text, the
next start is `500 + 1 - 501 = 0` — the pointer does not advance — and the
splitter never terminates (every fuel gives `none`); nothing in
`_split_long_text` guards against this. -/
theorem claim_C9_counterexample :
    splitLongText 500 501 50 (List.replicate 502 'a') = none ∧
    stepStart 500 501 50 (List.replicate 502 'a') 0 = 0 := by
  constructor
  · show splitAux 500 501 50 (List.replicate 502 'a') 0
      ((List.replicate 502 'a').length + 1) = none
    exact splitAux_overlap_loop _
  · unfold stepStart
    rw [boundedEnd_noSep 500 50 (List.replicate 502 'a')
      (fun c hc => by rw [List.eq_of_mem_replicate hc]; decide) 0]

/-- C1 (code bug).  For every task state reaching the end of a successful
storage stage, the epilogue of `process_document_complete` does advance the
document status to VECTORIZED `'2'`, and momentarily sets the task status
to `'completed'` — but building the result dict then reads the name
`vectors` (main.py line 478), which is bound nowhere in the function, so a
`NameError` is raised and the `except` handler leaves the task in
`'failed'` with that error recorded. -/
theorem claim_C1_completed_after_storage : ∀ t : TaskState,
    (storageEpilogue t).1 = "2" ∧
    (storageEpilogue t).2.status = "failed" ∧
    (storageEpilogue t).2.error = some "vectors" ∧
    processDocumentLocals.contains "vectors" = false := by
  intro t
  have hb : buildResult = Except.error "vectors" := rfl
  unfold storageEpilogue
  rw [hb]
  exact ⟨rfl, rfl, rfl, by decide⟩

/-- The markdown input of the C2 scenario: three heading markers, each
followed by a short body. -/
def mdInput : List Char := ("# A\n\naaa\n\n# B\n\nbbb\n\n# C\n\nccc").data

/-- C2 (code bug).  The raw scenario input has three heading markers —
`headerLineCount mdInput = 3`, so the claim's hypothesis holds and
`_has_markdown_structure` would see structure.  But `chunk_document`
cleans first, and `_clean_document` collapses every whitespace run —
newlines included — to a single space, after which the multiline heading
regex finds at most one match; the structural path is therefore never
taken, and the pipeline returns a single `semantic` chunk instead of three
`section` chunks. -/
theorem claim_C2_structural_path : 
    headerLineCount mdInput = 3 ∧
    hasMarkdownStructure mdInput = true ∧
    hasMarkdownStructure (cleanDocument mdInput) = false ∧
    (chunkDocument 500 50 50 mdInput ("notes.md").data 7).map (List.map Chunk.chunkType) =
      some ["semantic"] := by
  exact ⟨by decide, by decide, by decide, by decide⟩

/-- C3.  When `skip_processed` is set and a non-empty artifact (cached
chunk list) exists for the file, `process_document` returns exactly the
cached chunks and executes no downstream stage — no chunking,
vectorization, indexing or storage, and hence no external call. -/
theorem claim_C3_artifact_cache :
    ∀ (buildIndex : Bool) (cached : List Chunk) (content : Option (List Char))
      (chunkFn : List Char → List Chunk) (vecFn : List Chunk → List Chunk),
      cached ≠ [] →
      processDocument true buildIndex (some cached) content chunkFn vecFn = (cached, []) := by
  intro bi cached content cf vf h
  show (if cached ≠ [] then (cached, ([] : List Stage))
    else processDocumentRun bi content cf vf) = (cached, [])
  rw [if_pos h]

/-- Witness for C3 at a concrete cached artifact. -/
theorem claim_C3_witness :
    ([createChunk ("x").data ("a.md").data 1 0 "semantic"] : List Chunk) ≠ [] ∧
    processDocument true true (some [createChunk ("x").data ("a.md").data 1 0 "semantic"])
      none (fun _ => []) (fun l => l) =
      ([createChunk ("x").data ("a.md").data 1 0 "semantic"], []) :=
  ⟨by decide, claim_C3_artifact_cache true _ none (fun _ => []) (fun l => l) (by decide)⟩

/-- C6 (amended).  Once the document row is found, the boolean returned by
`delete_vectors_by_file_path` is `True` regardless of the Milvus deletion
outcome: a Milvus failure after the successful MySQL deletions is caught
and only printed (its message is the function's log output), and the
per-file result of `delete_documents` then reports `vector_deleted = True`
with `error = None` — full success, with the failure visible only in the
log. -/
theorem claim_C6_delete_swallows_milvus_failure :
    ∀ (docId : Nat) (milvusConnected : Bool) (milvusDelete : Except String Unit),
      (deleteVectorsByFilePath (some docId) milvusConnected milvusDelete).1 = true ∧
      (∀ msg, deleteVectorsByFilePath (some docId) true (Except.error msg) = (true, [msg])) ∧
      deleteDocumentsEntry (deleteVectorsByFilePath (some docId) milvusConnected milvusDelete).1 =
        { vectorDeleted := true, mdFileDeleted := false, error := none } := by
  intro docId mconn mdel
  have h1 : (deleteVectorsByFilePath (some docId) mconn mdel).1 = true := by
    unfold deleteVectorsByFilePath
    cases mconn <;> cases mdel <;> rfl
  refine ⟨h1, fun msg => rfl, ?_⟩
  rw [h1]
  rfl

/-- Counterexample for C6 as stated: a concrete failing Milvus delete after
successful metadata deletions still yields `True` and a per-file result
that reports full success (`vector_deleted = True`, no error), contradicting
the claimed partial-failure report. -/
theorem claim_C6_counterexample :
    deleteVectorsByFilePath (some 1) true (Except.error "milvus delete failed") =
      (true, ["milvus delete failed"]) ∧
    deleteDocumentsEntry
        (deleteVectorsByFilePath (some 1) true (Except.error "milvus delete failed")).1 =
      { vectorDeleted := true, mdFileDeleted := false, error := none } :=
  ⟨rfl, rfl⟩

/-- C7 (amended).  On first ingestion (no document row yet) the observable
status sequence is 0, 2 — non-decreasing.  But a re-ingestion run writes
`'1'` and then `'2'` unconditionally, so a document already at
VECTORIZED `'2'` observes the sequence 2, 1, 1, 2 — a transient revert —
and `update_document_status` itself writes whatever status it is given,
with no monotonicity guard. -/
theorem claim_C7_status_writes :
    observedStatuses none = ["0", "2"] ∧
    statusMonotone (observedStatuses none) = true ∧
    (∀ s, observedStatuses (some s) = [s, "1", "1", "2"]) ∧
    (∀ s status, updateDocumentStatus (some s) status = some status) :=
  ⟨rfl, by decide, fun s => rfl, fun s status => rfl⟩

/-- Counterexample for C7 as stated: re-ingesting a document whose status
is VECTORIZED `'2'` produces the observed status sequence 2, 1, 1, 2,
which is not non-decreasing. -/
theorem claim_C7_counterexample :
    observedStatuses (some "2") = ["2", "1", "1", "2"] ∧
    statusMonotone (observedStatuses (some "2")) = false :=
  ⟨rfl, by decide⟩

/-- C8.  Every vector shorter than the fixed dimension 768 is zero-padded
to exactly 768 entries with the original entries as a prefix; every vector
longer than 768 is truncated to exactly its first 768 entries. -/
theorem claim_C8_dimension_normalization :
    ∀ v : List Int,
      (v.length < 768 →
        normalizeVector v = v ++ List.replicate (768 - v.length) 0 ∧
        (normalizeVector v).length = 768 ∧
        (normalizeVector v).take v.length = v) ∧
      (768 < v.length →
        normalizeVector v = v.take 768 ∧ (normalizeVector v).length = 768) := by
  intro v
  constructor
  · intro h
    have he : normalizeVector v = v ++ List.replicate (768 - v.length) 0 := by
      unfold normalizeVector
      rw [if_neg (by omega), if_neg (by omega)]
    refine ⟨he, ?_, ?_⟩
    · rw [he, List.length_append, List.length_replicate]
      omega
    · rw [he, List.take_left]
  · intro h
    have he : normalizeVector v = v.take 768 := by
      unfold normalizeVector
      rw [if_neg (by omega), if_pos h]
    refine ⟨he, ?_⟩
    rw [he, List.length_take]
    omega

/-- Witness for C8 at a length-500 vector (padding) and a length-1000
vector (truncation). -/
theorem claim_C8_witness :
    (List.replicate 500 (1 : Int)).length < 768 ∧
    normalizeVector (List.replicate 500 (1 : Int)) =
      List.replicate 500 (1 : Int) ++ List.replicate 268 0 ∧
    768 < (List.replicate 1000 (2 : Int)).length ∧
    normalizeVector (List.replicate 1000 (2 : Int)) = (List.replicate 1000 (2 : Int)).take 768 := by
  have h1 : (List.replicate 500 (1 : Int)).length < 768 := by
    rw [List.length_replicate]
    omega
  have h2 : 768 < (List.replicate 1000 (2 : Int)).length := by
    rw [List.length_replicate]
    omega
  refine ⟨h1, ?_, h2, ((claim_C8_dimension_normalization _).2 h2).1⟩
  have he := ((claim_C8_dimension_normalization (List.replicate 500 (1 : Int))).1 h1).1
  rw [he, List.length_replicate]

/-- C10.  The strategy family is fixed by the file extension alone: chunks
of type `section`/`section_split` can only arise for `.md`/`.markdown`
paths; `.txt`/`.text` paths only ever produce `paragraph`/`semantic`
chunks (with their `_split` variants); every other extension produces only
`fixed_length` chunks, whatever the content. -/
theorem claim_C10_strategy_by_extension :
    ∀ (cs co mc : Nat) (content path : List Char) (fid : Nat) (l : List Chunk) (c : Chunk),
      chunkDocument cs co mc content path fid = some l → c ∈ l →
      (¬(getFileExt path = (".md").data ∨ getFileExt path = (".markdown").data) →
        c.chunkType ≠ "section" ∧ c.chunkType ≠ "section_split") ∧
      ((getFileExt path = (".txt").data ∨ getFileExt path = (".text").data) →
        c.chunkType = "paragraph" ∨ c.chunkType = "paragraph_split" ∨
        c.chunkType = "semantic" ∨ c.chunkType = "semantic_split") ∧
      (¬(getFileExt path = (".md").data ∨ getFileExt path = (".markdown").data) →
       ¬(getFileExt path = (".txt").data ∨ getFileExt path = (".text").data) →
        c.chunkType = "fixed_length") := by
  intro cs co mc content path fid l c hl hc
  unfold chunkDocument at hl
  by_cases hmd : getFileExt path = (".md").data ∨ getFileExt path = (".markdown").data
  · rw [if_pos hmd] at hl
    refine ⟨fun h => absurd hmd h, ?_, fun h => absurd hmd h⟩
    intro htxt
    rcases hmd with h1 | h1 <;> rcases htxt with h2 | h2 <;>
      (rw [h1] at h2; exact absurd h2 (by decide))
  · rw [if_neg hmd] at hl
    by_cases htxt : getFileExt path = (".txt").data ∨ getFileExt path = (".text").data
    · rw [if_pos htxt] at hl
      have hty := chunkTextDocument_noStructure_types cs co mc _ path fid l hl c hc
      refine ⟨fun _ => ?_, fun _ => hty, fun _ h => absurd htxt h⟩
      rcases hty with h | h | h | h <;> rw [h] <;> exact ⟨by decide, by decide⟩
    · rw [if_neg htxt] at hl
      have hty := chunkByFixedLength_types cs co mc _ path fid l hl c hc
      refine ⟨fun _ => ?_, fun h => absurd h htxt, fun _ _ => hty⟩
      rw [hty]
      exact ⟨by decide, by decide⟩

/-- Witness for C10 at a `.pdf` path: the single chunk produced is of type
`fixed_length`. -/
theorem claim_C10_witness :
    chunkDocument 500 50 50 ("hello").data ("a.pdf").data 1 =
      some [createChunk ("hello").data ("a.pdf").data 1 0 "fixed_length"] ∧
    (createChunk ("hello").data ("a.pdf").data 1 0 "fixed_length").chunkType =
      "fixed_length" := by
  have he : chunkDocument 500 50 50 ("hello").data ("a.pdf").data 1 =
      some [createChunk ("hello").data ("a.pdf").data 1 0 "fixed_length"] := by decide
  exact ⟨he,
    (claim_C10_strategy_by_extension 500 50 50 ("hello").data ("a.pdf").data 1 _ _ he
      (by simp)).2.2 (by decide) (by decide)⟩
